import Mathlib

/-!
Verification of the license-terms builder and license-minting fee logic of the
story-build MCP tool set.

The embedding follows `src/utils/license-terms.ts` (the preset builders
`createCommercialRemixTerms` / `createNonCommercialTerms`), the
`CreateLicenseTermsTool.handler` (preset dispatch, natural-language override
parsing, record construction) and `MintLicenseTool` (zod amount schema and
minting-fee computation).  Addresses are modelled as strings, on-chain bigints
as `Nat`, JavaScript numbers as exact values (`ℚ` for the revenue-share
percentage, a decimal-literal representation `DecNum` for token amounts that
flow through `parseEther`).
-/

set_option maxRecDepth 4000

/-- The Ethereum zero address (`zeroAddress` from viem). -/
def zeroAddress : String := "0x0000000000000000000000000000000000000000"

/-- Royalty policy LAP address hard-coded in `license-terms.ts` and in the
`commercial_use` / `custom` branches of `CreateLicenseTermsTool.handler`. -/
def RoyaltyPolicyLAP : String := "0xBe54FB168b3c982b7AaE60dB6CF75Bd8447b390E"

/-- Royalty policy LRP address exported by `license-terms.ts` (unused by the
builders but part of the module). -/
def RoyaltyPolicyLRP : String := "0x9156e603C949481883B1d3355c6f1132D191fC41"

/-- The WIP payment-token address imported from the Story SDK. -/
def WIP_TOKEN_ADDRESS : String := "0x1514000000000000000000000000000000000000"

/-- A non-negative decimal literal, as produced by `Number.prototype.toString`
on a non-negative JavaScript number in fixed notation: a whole part `w` and the
list of fractional digits.  `⟨1, [5]⟩` stands for `1.5`, `⟨0, []⟩` for `0`. -/
structure DecNum where
  w : ℕ
  fdigits : List ℕ
deriving DecidableEq, Repr

/-- Value of a digit list read as a base-10 numeral. -/
def fracValN (l : List ℕ) : ℕ := l.foldl (fun a d => 10 * a + d) 0

/-- JavaScript truthiness of the number: `0` (and only `0`) is falsy. -/
def DecNum.isZero (d : DecNum) : Bool := d.w == 0 && fracValN d.fdigits == 0

/-- Exact rational value of the decimal literal. -/
def DecNum.val (d : DecNum) : ℚ :=
  (d.w : ℚ) + (fracValN d.fdigits : ℚ) / 10 ^ d.fdigits.length

/-- Embedding of viem's `parseEther` (`parseUnits` with 18 decimals), the
external conversion the source calls on every human-facing token amount: the
decimal is scaled by `10^18`; with at most 18 fractional digits the scaling is
exact; beyond 18 digits viem rounds half-up at the 18-digit boundary. -/
def parseEther (d : DecNum) : ℕ :=
  if d.fdigits.length ≤ 18 then
    d.w * 10 ^ 18 + fracValN d.fdigits * 10 ^ (18 - d.fdigits.length)
  else
    d.w * 10 ^ 18 +
      (if 10 ^ (d.fdigits.drop 18).length ≤ 2 * fracValN (d.fdigits.drop 18) then
        fracValN (d.fdigits.take 18) + 1
      else fracValN (d.fdigits.take 18))

/-- The `LicenseTerms` record submitted to `registerPILTerms`, with the fields
used by the source (`@story-protocol/core-sdk` type). -/
structure LicenseTerms where
  transferable : Bool
  royaltyPolicy : String
  defaultMintingFee : ℕ
  expiration : ℕ
  commercialUse : Bool
  commercialAttribution : Bool
  commercializerChecker : String
  commercializerCheckerData : String
  commercialRevShare : ℚ
  commercialRevCeiling : ℕ
  derivativesAllowed : Bool
  derivativesAttribution : Bool
  derivativesApproval : Bool
  derivativesReciprocal : Bool
  derivativeRevCeiling : ℕ
  currency : String
  uri : String
deriving DecidableEq, Repr

/-- `createCommercialRemixTerms` from `src/utils/license-terms.ts`. -/
def createCommercialRemixTerms (commercialRevShare : ℚ) (defaultMintingFee : DecNum) :
    LicenseTerms where
  transferable := true
  royaltyPolicy := RoyaltyPolicyLAP
  defaultMintingFee := parseEther defaultMintingFee
  expiration := 0
  commercialUse := true
  commercialAttribution := true
  commercializerChecker := zeroAddress
  commercializerCheckerData := "0x"
  commercialRevShare := commercialRevShare
  commercialRevCeiling := 0
  derivativesAllowed := true
  derivativesAttribution := true
  derivativesApproval := false
  derivativesReciprocal := true
  derivativeRevCeiling := 0
  currency := WIP_TOKEN_ADDRESS
  uri := "https://github.com/piplabs/pil-document/blob/ad67bb632a310d2557f8abcccd428e4c9c798db1/off-chain-terms/CommercialRemix.json"

/-- `createNonCommercialTerms` from `src/utils/license-terms.ts`. -/
def createNonCommercialTerms : LicenseTerms where
  transferable := true
  royaltyPolicy := zeroAddress
  defaultMintingFee := 0
  expiration := 0
  commercialUse := false
  commercialAttribution := false
  commercializerChecker := zeroAddress
  commercializerCheckerData := "0x"
  commercialRevShare := 0
  commercialRevCeiling := 0
  derivativesAllowed := true
  derivativesAttribution := true
  derivativesApproval := false
  derivativesReciprocal := true
  derivativeRevCeiling := 0
  currency := zeroAddress
  uri := "https://github.com/piplabs/pil-document/blob/998c13e6ee1d04eb817aefd1fe16dfe8be3cd7a2/off-chain-terms/NCSR.json"

/-- The `license_type` enum of `CreateLicenseTermsTool.schema`. -/
inductive LicenseType where
  | custom
  | commercial_remix
  | non_commercial
  | commercial_use
deriving DecidableEq, Repr

/-- The handler input after zod schema validation and defaulting
(`CreateLicenseTermsTool.schema`): every non-optional field carries its
default when the caller omitted it. -/
structure LtInput where
  license_type : LicenseType
  commercial_use : Bool
  derivatives_allowed : Bool
  minting_fee : DecNum
  commercial_rev_share : ℚ
  commercial_rev_ceiling : ℕ
  commercial_attribution : Bool
  derivatives_attribution : Bool
  derivatives_approval : Bool
  derivatives_reciprocal : Bool
  transferable : Bool
  expiration : ℕ
  terms_uri : Option String
  description : Option (List Char)
deriving DecidableEq

/-- The zod bounds on the explicit `commercial_rev_share` parameter
(`.min(0).max(100)`). -/
def schemaValidRevShare (q : ℚ) : Prop := 0 ≤ q ∧ q ≤ 100

/-- Boolean prefix test on character lists (JS `String.prototype.startsWith`). -/
def isPrefixL : List Char → List Char → Bool
  | [], _ => true
  | _ :: _, [] => false
  | a :: as, b :: bs => a == b && isPrefixL as bs

/-- Boolean substring test on character lists (JS `String.prototype.includes`). -/
def isSubL (pat : List Char) : List Char → Bool
  | [] => pat.isEmpty
  | c :: rest => isPrefixL pat (c :: rest) || isSubL pat rest

/-- ASCII subset of the JS regex `\s` class. -/
def isSpaceChar (c : Char) : Bool :=
  c == ' ' || c == '\t' || c == '\n' || c == '\r' || c == '\x0b' || c == '\x0c'

/-- Numeric value of an ASCII digit character. -/
def charDigit (c : Char) : ℕ := c.toNat - 48

/-- `parseInt` on a non-empty all-digit capture. -/
def digitsToNat (l : List Char) : ℕ := l.foldl (fun a c => 10 * a + charDigit c) 0

/-- First match of the regex `/(\d+)%/` (the revenue-share override in
`CreateLicenseTermsTool.handler`): the regex engine tries each start index in
order; at an index the greedy digit run must be directly followed by `%`. -/
def findPercent : List Char → Option ℕ
  | [] => none
  | c :: rest =>
    if c.isDigit then
      match List.span Char.isDigit (c :: rest) with
      | (run, after) =>
        match after with
        | '%' :: _ => some (digitsToNat run)
        | _ => findPercent rest
    else findPercent rest

/-- Attempt to match `(\d+(?:\.\d+)?)\s*(?:wip|dollars?|usd)` at the head of
the list, returning the captured decimal.  The quantifiers are greedy and no
backtracking case can succeed where the greedy parse fails, so the match is
deterministic. -/
def matchFeeCore (s : List Char) : Option DecNum :=
  match List.span Char.isDigit s with
  | ([], _) => none
  | (ds, rest1) =>
    let fr : List Char × List Char :=
      match rest1 with
      | '.' :: r =>
        match List.span Char.isDigit r with
        | ([], _) => ([], rest1)
        | (fs, r2) => (fs, r2)
      | _ => ([], rest1)
    let rest3 := fr.2.dropWhile isSpaceChar
    if isPrefixL (("wip").toList) rest3 || isPrefixL (("dollar").toList) rest3
        || isPrefixL (("usd").toList) rest3 then
      some ⟨digitsToNat ds, fr.1.map charDigit⟩
    else none

/-- Attempt to match the full fee pattern `\$?(\d+(?:\.\d+)?)\s*(?:wip|dollars?|usd)`
at the head of the list: an optional leading `$`, then the core; if the `$` is
present but the core fails, dropping the `$` cannot help because `\d+` never
matches `$`. -/
def matchFeeAt (s : List Char) : Option DecNum :=
  match s with
  | '$' :: r => matchFeeCore r
  | _ => matchFeeCore s

/-- First match of the fee regex
`/\$?(\d+(?:\.\d+)?)\s*(?:wip|dollars?|usd)/` over the whole string. -/
def findFee : List Char → Option DecNum
  | [] => none
  | c :: rest =>
    match matchFeeAt (c :: rest) with
    | some d => some d
    | none => findFee rest

/-- `desc.includes('no commercial') || desc.includes('non-commercial')`
override: force `commercial_use = false`. -/
def ovCommercial (d : List Char) (inp : LtInput) : LtInput :=
  if isSubL (("no commercial").toList) d || isSubL (("non-commercial").toList) d then
    { inp with commercial_use := false }
  else inp

/-- `desc.includes('no derivatives') || desc.includes('no remixes')` override:
force `derivatives_allowed = false`. -/
def ovDeriv (d : List Char) (inp : LtInput) : LtInput :=
  if isSubL (("no derivatives").toList) d || isSubL (("no remixes").toList) d then
    { inp with derivatives_allowed := false }
  else inp

/-- `desc.includes('free') || desc.includes('no fee')` override: force
`minting_fee = 0`. -/
def ovFree (d : List Char) (inp : LtInput) : LtInput :=
  if isSubL (("free").toList) d || isSubL (("no fee").toList) d then
    { inp with minting_fee := ⟨0, []⟩ }
  else inp

/-- Percentage extraction: on a `/(\d+)%/` match, set `commercial_rev_share`
to the parsed integer. -/
def ovPercent (d : List Char) (inp : LtInput) : LtInput :=
  match findPercent d with
  | some n => { inp with commercial_rev_share := (n : ℚ) }
  | none => inp

/-- Fee extraction: on a fee-regex match, set `minting_fee` to the captured
decimal. -/
def ovFee (d : List Char) (inp : LtInput) : LtInput :=
  match findFee d with
  | some f => { inp with minting_fee := f }
  | none => inp

/-- The natural-language override block of the `custom` branch of
`CreateLicenseTermsTool.handler`: skipped when `description` is absent or the
empty string (falsy); otherwise the description is lower-cased once and the
five override rules run in source order, each mutating the input record. -/
def applyOverrides (inp : LtInput) : LtInput :=
  match inp.description with
  | none => inp
  | some d0 =>
    if d0.isEmpty then inp
    else
      let d := d0.map Char.toLower
      ovFee d (ovPercent d (ovFree d (ovDeriv d (ovCommercial d inp))))

/-- JS `x || dflt` defaulting on a number-valued field. -/
def orDefaultQ (q : ℚ) (dflt : ℚ) : ℚ := if q = 0 then dflt else q

/-- JS `x || dflt` defaulting on a decimal-literal field. -/
def orDefaultDec (d : DecNum) (dflt : DecNum) : DecNum :=
  if d.isZero then dflt else d

/-- The license-terms record built by `CreateLicenseTermsTool.handler` and
passed to `agent.client.license.registerPILTerms`, by preset. -/
def buildLicenseTerms (inp : LtInput) : LicenseTerms :=
  match inp.license_type with
  | .commercial_remix =>
    createCommercialRemixTerms (orDefaultQ inp.commercial_rev_share 5)
      (orDefaultDec inp.minting_fee ⟨1, []⟩)
  | .non_commercial => createNonCommercialTerms
  | .commercial_use =>
    { transferable := inp.transferable
      royaltyPolicy := if 0 < inp.commercial_rev_share then RoyaltyPolicyLAP else zeroAddress
      defaultMintingFee := parseEther inp.minting_fee
      expiration := inp.expiration
      commercialUse := true
      commercialAttribution := inp.commercial_attribution
      commercializerChecker := zeroAddress
      commercializerCheckerData := "0x"
      commercialRevShare := inp.commercial_rev_share
      commercialRevCeiling := inp.commercial_rev_ceiling
      derivativesAllowed := false
      derivativesAttribution := false
      derivativesApproval := false
      derivativesReciprocal := false
      derivativeRevCeiling := 0
      currency := WIP_TOKEN_ADDRESS
      uri := inp.terms_uri.getD "" }
  | .custom =>
    let i := applyOverrides inp
    { transferable := i.transferable
      royaltyPolicy :=
        if i.commercial_use && decide (0 < i.commercial_rev_share) then RoyaltyPolicyLAP
        else zeroAddress
      defaultMintingFee := parseEther i.minting_fee
      expiration := i.expiration
      commercialUse := i.commercial_use
      commercialAttribution := i.commercial_attribution
      commercializerChecker := zeroAddress
      commercializerCheckerData := "0x"
      commercialRevShare := i.commercial_rev_share
      commercialRevCeiling := i.commercial_rev_ceiling
      derivativesAllowed := i.derivatives_allowed
      derivativesAttribution := i.derivatives_attribution
      derivativesApproval := i.derivatives_approval
      derivativesReciprocal := i.derivatives_reciprocal
      derivativeRevCeiling := 0
      currency := WIP_TOKEN_ADDRESS
      uri := i.terms_uri.getD "" }

/-- Violations the zod `amount` schema of `MintLicenseTool`
(`z.number().int().min(1)`) reports for a given JS number. -/
inductive AmountIssue where
  | invalidType
  | tooSmall
deriving DecidableEq, Repr

/-- All issues the zod `amount` check collects: non-integer and below-minimum. -/
def amountIssues (q : ℚ) : List AmountIssue :=
  (if q.den = 1 then [] else [AmountIssue.invalidType]) ++
    (if q < 1 then [AmountIssue.tooSmall] else [])

/-- The fee quote of `MintLicenseTool.handler`: the total is
`mintingFeePerToken * BigInt(amount)`; the effective maximum is the caller's
`max_minting_fee` scaled by `parseEther` when supplied, otherwise
`total + total / 10n` (10% slippage buffer, truncating bigint division). -/
def mintQuote (perTokenFee : ℕ) (amount : ℕ) (callerMax : Option DecNum) : ℕ × ℕ :=
  let total := perTokenFee * amount
  (total,
    match callerMax with
    | some m => parseEther m
    | none => total + total / 10)

/-- Schema validation followed by the fee quote: the quote is only computed
when the zod `amount` schema accepted the request. -/
def mintPipeline (amount : ℚ) (perTokenFee : ℕ) (callerMax : Option DecNum) :
    Except (List AmountIssue) (ℕ × ℕ) :=
  if amountIssues amount = [] then
    Except.ok (mintQuote perTokenFee amount.num.toNat callerMax)
  else Except.error (amountIssues amount)

/-- The input produced by `CreateLicenseTermsTool.schema` when the caller only
sets `license_type = custom`: every other field carries its zod default. -/
def defaultInput : LtInput where
  license_type := .custom
  commercial_use := true
  derivatives_allowed := true
  minting_fee := ⟨1, []⟩
  commercial_rev_share := 0
  commercial_rev_ceiling := 5
  commercial_attribution := true
  derivatives_attribution := true
  derivatives_approval := false
  derivatives_reciprocal := true
  transferable := true
  expiration := 0
  terms_uri := none
  description := none

/-- Custom preset with commercial use explicitly disabled, attribution left at
its default `true` and an explicit 20% revenue share. -/
def c2Inp : LtInput :=
  { defaultInput with commercial_use := false, commercial_rev_share := 20 }

/-- Non-commercial preset request. -/
def ncInp : LtInput := { defaultInput with license_type := .non_commercial }

/-- Custom preset carrying the free-text description of spec §8.8. -/
def c3Inp : LtInput :=
  { defaultInput with
    description := some (("no commercial, free minting, 20% revenue share").toList) }

/-- Custom preset whose description is a bare dollar amount with no unit word. -/
def c7Inp : LtInput := { defaultInput with description := some (("$5").toList) }

/-- Custom preset whose description names a fee with the `wip` unit word. -/
def w7Inp : LtInput := { defaultInput with description := some (("2 wip").toList) }

/-- Commercial-remix preset request with both falsy numeric inputs. -/
def c9Inp : LtInput :=
  { defaultInput with
    license_type := .commercial_remix, minting_fee := ⟨0, []⟩, commercial_rev_share := 0 }

/-- Commercial-remix preset request with the schema defaults. -/
def c1Inp : LtInput := { defaultInput with license_type := .commercial_remix }

/-- Custom preset whose description contains a percentage above the schema
bound of the explicit parameter. -/
def c10Inp : LtInput := { defaultInput with description := some (("150% share").toList) }

/-- The decimal `0.0000012345678901005021`: the shortest round-trip decimal
representation of the IEEE double nearest `1.2345678901005021e-6`.  A
JavaScript number in `[1e-6, 1e-5)` stringifies in fixed notation, so this is
a reachable, schema-valid `minting_fee` whose string has 22 fractional
digits — more than the 18 the base-unit scaling can represent. -/
def dC6 : DecNum :=
  ⟨0, [0, 0, 0, 0, 0, 1, 2, 3, 4, 5, 6, 7, 8, 9, 0, 1, 0, 0, 5, 0, 2, 1]⟩

/-- The decimal `0.0000000000000000019` (19 fractional digits), whose scaled
value `1.9` base units sits above the half-way point. -/
def dW6 : DecNum := ⟨0, [0, 0, 0, 0, 0, 0, 0, 0, 0, 0, 0, 0, 0, 0, 0, 0, 0, 1, 9]⟩

theorem ovCommercial_minting_fee (d : List Char) (i : LtInput) :
    (ovCommercial d i).minting_fee = i.minting_fee := by
  unfold ovCommercial; split <;> rfl

theorem ovDeriv_minting_fee (d : List Char) (i : LtInput) :
    (ovDeriv d i).minting_fee = i.minting_fee := by
  unfold ovDeriv; split <;> rfl

theorem ovPercent_minting_fee (d : List Char) (i : LtInput) :
    (ovPercent d i).minting_fee = i.minting_fee := by
  unfold ovPercent; split <;> rfl

theorem ovFee_minting_fee_of_match (d : List Char) (i : LtInput) (f : DecNum)
    (h : findFee d = some f) : (ovFee d i).minting_fee = f := by
  unfold ovFee; rw [h]

theorem ovFee_minting_fee_of_none (d : List Char) (i : LtInput)
    (h : findFee d = none) : (ovFee d i).minting_fee = i.minting_fee := by
  unfold ovFee; rw [h]

theorem ovFree_minting_fee_of_not (d : List Char) (i : LtInput)
    (h1 : isSubL (("free").toList) d = false) (h2 : isSubL (("no fee").toList) d = false) :
    (ovFree d i).minting_fee = i.minting_fee := by
  unfold ovFree; rw [h1, h2]; rfl

theorem ovCommercial_rev_share (d : List Char) (i : LtInput) :
    (ovCommercial d i).commercial_rev_share = i.commercial_rev_share := by
  unfold ovCommercial; split <;> rfl

theorem ovDeriv_rev_share (d : List Char) (i : LtInput) :
    (ovDeriv d i).commercial_rev_share = i.commercial_rev_share := by
  unfold ovDeriv; split <;> rfl

theorem ovFree_rev_share (d : List Char) (i : LtInput) :
    (ovFree d i).commercial_rev_share = i.commercial_rev_share := by
  unfold ovFree; split <;> rfl

theorem ovFee_rev_share (d : List Char) (i : LtInput) :
    (ovFee d i).commercial_rev_share = i.commercial_rev_share := by
  unfold ovFee; split <;> rfl

theorem ovPercent_rev_share_of_match (d : List Char) (i : LtInput) (n : ℕ)
    (h : findPercent d = some n) : (ovPercent d i).commercial_rev_share = (n : ℚ) := by
  unfold ovPercent; rw [h]

theorem applyOverrides_minting_fee_of_match (inp : LtInput) (d0 : List Char) (f : DecNum)
    (hd : inp.description = some d0) (hne : d0 ≠ [])
    (h : findFee (d0.map Char.toLower) = some f) :
    (applyOverrides inp).minting_fee = f := by
  simp only [applyOverrides, hd]
  rw [if_neg (by simpa using hne)]
  exact ovFee_minting_fee_of_match _ _ _ h

theorem applyOverrides_rev_share_of_match (inp : LtInput) (d0 : List Char) (n : ℕ)
    (hd : inp.description = some d0) (hne : d0 ≠ [])
    (h : findPercent (d0.map Char.toLower) = some n) :
    (applyOverrides inp).commercial_rev_share = (n : ℚ) := by
  simp only [applyOverrides, hd]
  rw [if_neg (by simpa using hne)]
  rw [ovFee_rev_share]
  exact ovPercent_rev_share_of_match _ _ _ h

theorem orDefaultQ_pos (q : ℚ) (h : 0 ≤ q) : 0 < orDefaultQ q 5 := by
  unfold orDefaultQ
  split
  · norm_num
  · rename_i hne
    exact lt_of_le_of_ne h (Ne.symm hne)

theorem parseEther_ne_zero (d : DecNum) (hlen : d.fdigits.length ≤ 18)
    (hnz : d.isZero = false) : parseEther d ≠ 0 := by
  unfold parseEther
  rw [if_pos hlen]
  unfold DecNum.isZero at hnz
  intro h0
  rw [Nat.add_eq_zero, Nat.mul_eq_zero, Nat.mul_eq_zero] at h0
  have hw : d.w = 0 := by
    rcases h0.1 with h | h
    · exact h
    · exact absurd h (by positivity)
  have hf : fracValN d.fdigits = 0 := by
    rcases h0.2 with h | h
    · exact h
    · exact absurd h (by positivity)
  simp [hw, hf] at hnz

theorem fracValN_foldl (l : List ℕ) :
    ∀ acc : ℕ, l.foldl (fun a d => 10 * a + d) acc = acc * 10 ^ l.length + fracValN l := by
  induction l with
  | nil => intro acc; simp [fracValN]
  | cons c t ih =>
    intro acc
    have h2 : fracValN (c :: t) = c * 10 ^ t.length + fracValN t := by
      have h := ih c
      simpa [fracValN] using h
    simp only [List.foldl_cons, List.length_cons]
    rw [ih (10 * acc + c), h2, pow_succ]
    ring

theorem fracValN_append (a b : List ℕ) :
    fracValN (a ++ b) = fracValN a * 10 ^ b.length + fracValN b := by
  unfold fracValN
  rw [List.foldl_append]
  exact fracValN_foldl b _

theorem fracValN_lt (l : List ℕ) (h : ∀ k ∈ l, k ≤ 9) : fracValN l < 10 ^ l.length := by
  induction l with
  | nil => simp [fracValN]
  | cons c t ih =>
    have hc : c ≤ 9 := h c (List.mem_cons_self c t)
    have ht : fracValN t < 10 ^ t.length := ih (fun k hk => h k (List.mem_cons_of_mem c hk))
    have h2 : fracValN (c :: t) = c * 10 ^ t.length + fracValN t := by
      have hf := fracValN_foldl t c
      simpa [fracValN] using hf
    rw [h2, List.length_cons, pow_succ]
    calc c * 10 ^ t.length + fracValN t < c * 10 ^ t.length + 10 ^ t.length := by omega
      _ = (c + 1) * 10 ^ t.length := by ring
      _ ≤ 10 * 10 ^ t.length := Nat.mul_le_mul_right _ (by omega)
      _ = 10 ^ t.length * 10 := by ring

theorem parseEther_half_up (d : DecNum) (hlen : 18 < d.fdigits.length)
    (hdig : ∀ k ∈ d.fdigits, k ≤ 9) :
    (parseEther d : ℤ) = ⌊d.val * 10 ^ 18 + 1 / 2⌋ := by
  unfold parseEther
  rw [if_neg (by omega)]
  set T := fracValN (d.fdigits.take 18) with hT
  set R := fracValN (d.fdigits.drop 18) with hRdef
  set m := (d.fdigits.drop 18).length with hm
  have hmlen : d.fdigits.length = 18 + m := by
    rw [hm, List.length_drop]; omega
  have hsplit : fracValN d.fdigits = T * 10 ^ m + R := by
    conv_lhs => rw [← List.take_append_drop 18 d.fdigits]
    exact fracValN_append _ _
  have hR : R < 10 ^ m :=
    fracValN_lt _ (fun k hk => hdig k (List.mem_of_mem_drop hk))
  have hval : d.val * 10 ^ 18 = ((d.w * 10 ^ 18 + T : ℕ) : ℚ) + (R : ℚ) / 10 ^ m := by
    unfold DecNum.val
    rw [hmlen, hsplit]
    have hp : (10 : ℚ) ^ (18 + m) = 10 ^ 18 * 10 ^ m := pow_add 10 18 m
    push_cast
    rw [hp]
    field_simp
    ring
  rw [hval, add_assoc, Int.floor_nat_add]
  by_cases hcase : 10 ^ m ≤ 2 * R
  · rw [if_pos hcase]
    have hfloor : ⌊(R : ℚ) / 10 ^ m + 1 / 2⌋ = 1 := by
      rw [Int.floor_eq_iff]
      constructor
      · have h1 : ((10 : ℚ) ^ m) ≤ 2 * R := by exact_mod_cast hcase
        have hhalf : (1 : ℚ) / 2 ≤ (R : ℚ) / 10 ^ m := by
          rw [div_le_div_iff₀ (by norm_num) (by positivity : (0 : ℚ) < 10 ^ m)]
          linarith
        push_cast
        linarith
      · have h2 : (R : ℚ) < 10 ^ m := by exact_mod_cast hR
        have h3 : (R : ℚ) / 10 ^ m < 1 := by
          rw [div_lt_one (by positivity : (0 : ℚ) < 10 ^ m)]
          exact h2
        push_cast
        linarith
    rw [hfloor]
    push_cast
    ring
  · rw [if_neg hcase]
    have hfloor : ⌊(R : ℚ) / 10 ^ m + 1 / 2⌋ = 0 := by
      rw [Int.floor_eq_iff]
      constructor
      · have : (0 : ℚ) ≤ (R : ℚ) / 10 ^ m := by positivity
        push_cast
        linarith
      · have h1 : (2 : ℚ) * R < 10 ^ m := by exact_mod_cast (by omega : 2 * R < 10 ^ m)
        have h3 : (R : ℚ) / 10 ^ m < 1 / 2 := by
          rw [div_lt_div_iff₀ (by positivity : (0 : ℚ) < 10 ^ m) (by norm_num)]
          linarith
        push_cast
        linarith
    rw [hfloor]
    push_cast
    ring

/-- C1: for the `commercial_remix`, `commercial_use` and `custom` presets and
every schema-valid parameter set, the submitted record's `royaltyPolicy` is
non-null (not the zero address) if and only if the record has
`commercialUse = true` and `commercialRevShare > 0`. -/
theorem royalty_policy_iff_commercial_and_share (inp : LtInput)
    (hv : schemaValidRevShare inp.commercial_rev_share)
    (ht : inp.license_type = LicenseType.commercial_remix ∨
          inp.license_type = LicenseType.commercial_use ∨
          inp.license_type = LicenseType.custom) :
    (buildLicenseTerms inp).royaltyPolicy ≠ zeroAddress ↔
      ((buildLicenseTerms inp).commercialUse = true ∧
        0 < (buildLicenseTerms inp).commercialRevShare) := by
  have hLAP : RoyaltyPolicyLAP ≠ zeroAddress := by decide
  rcases ht with h | h | h
  · have hpos := orDefaultQ_pos inp.commercial_rev_share hv.1
    simp only [buildLicenseTerms, h, createCommercialRemixTerms]
    simp [hLAP, hpos]
  · simp only [buildLicenseTerms, h]
    split
    · rename_i hpos
      simp [hLAP, hpos]
    · rename_i hneg
      simp [hneg]
  · simp only [buildLicenseTerms, h]
    split
    · rename_i hcond
      rw [Bool.and_eq_true, decide_eq_true_eq] at hcond
      simp [hLAP, hcond.1, hcond.2]
    · rename_i hcond
      rw [Bool.and_eq_true, decide_eq_true_eq] at hcond
      simp only [ne_eq, eq_self_iff_true, not_true, false_iff]
      exact hcond

/-- C1 witness: the theorem applied to a commercial-remix request with the
schema defaults (revenue share 0, which the handler defaults to 5). -/
theorem royalty_policy_iff_commercial_and_share_witness :
    schemaValidRevShare c1Inp.commercial_rev_share ∧
      ((buildLicenseTerms c1Inp).royaltyPolicy ≠ zeroAddress ↔
        ((buildLicenseTerms c1Inp).commercialUse = true ∧
          0 < (buildLicenseTerms c1Inp).commercialRevShare)) :=
  ⟨by constructor <;> norm_num [c1Inp, defaultInput],
    royalty_policy_iff_commercial_and_share c1Inp
      (by constructor <;> norm_num [c1Inp, defaultInput]) (Or.inl rfl)⟩

/-- C2 counterexample: a schema-valid `custom` request with
`commercial_use = false`, the default `commercial_attribution = true` and an
explicit 20% revenue share produces a record with `commercialUse = false` but
`commercialAttribution = true` and `commercialRevShare = 20 ≠ 0`, refuting the
claim that `commercialUse = false` forces those fields to `false`/`0`. -/
theorem custom_preset_violates_commercial_gating :
    schemaValidRevShare c2Inp.commercial_rev_share ∧
    (buildLicenseTerms c2Inp).commercialUse = false ∧
    (buildLicenseTerms c2Inp).commercialAttribution = true ∧
    (buildLicenseTerms c2Inp).commercialRevShare = 20 := by
  refine ⟨⟨by norm_num [c2Inp, defaultInput], by norm_num [c2Inp, defaultInput]⟩, ?_, ?_, ?_⟩
  all_goals decide

/-- C2 amended: for every preset, `commercialUse = false` in the resulting
record forces `royaltyPolicy` to the zero address; the stronger gating of
`commercialAttribution` and `commercialRevShare` holds for the
`non_commercial` preset (the only non-custom preset that can produce
`commercialUse = false`), but not for `custom`. -/
theorem commercialUse_false_forces_zero_royalty_policy (inp : LtInput) :
    ((buildLicenseTerms inp).commercialUse = false →
      (buildLicenseTerms inp).royaltyPolicy = zeroAddress) ∧
    (inp.license_type = LicenseType.non_commercial →
      (buildLicenseTerms inp).commercialAttribution = false ∧
      (buildLicenseTerms inp).commercialRevShare = 0) := by
  constructor
  · intro h
    rcases htype : inp.license_type with _ | _ | _ | _
    · simp only [buildLicenseTerms, htype] at h ⊢
      simp only [h, Bool.false_and, if_neg Bool.false_ne_true]
    · simp [buildLicenseTerms, htype, createCommercialRemixTerms] at h
    · simp [buildLicenseTerms, htype, createNonCommercialTerms]
    · simp [buildLicenseTerms, htype] at h
  · intro htype
    simp [buildLicenseTerms, htype, createNonCommercialTerms]

/-- C2 amended witness: the zero-royalty conclusion at the counterexample
input, and the non-commercial gating at a non-commercial request. -/
theorem commercialUse_false_forces_zero_royalty_policy_witness :
    (buildLicenseTerms c2Inp).royaltyPolicy = zeroAddress ∧
    (buildLicenseTerms ncInp).commercialAttribution = false ∧
    (buildLicenseTerms ncInp).commercialRevShare = 0 :=
  ⟨(commercialUse_false_forces_zero_royalty_policy c2Inp).1 (by decide),
    ((commercialUse_false_forces_zero_royalty_policy ncInp).2 rfl).1,
    ((commercialUse_false_forces_zero_royalty_policy ncInp).2 rfl).2⟩

/-- C3: on the `custom` preset, the free-text description
"no commercial, free minting, 20% revenue share" over the schema defaults
yields `commercialUse = false`, `defaultMintingFee = 0`, and
`commercialRevShare = 20` — the percentage match is retained, not zeroed out,
although commercial use is disabled. -/
theorem freetext_no_commercial_free_20_percent :
    (buildLicenseTerms c3Inp).commercialUse = false ∧
    (buildLicenseTerms c3Inp).defaultMintingFee = 0 ∧
    (buildLicenseTerms c3Inp).commercialRevShare = 20 := by
  refine ⟨?_, ?_, ?_⟩ <;> decide

/-- C4: for every per-token fee and positive quantity, the fee quote's total
is the exact product `perTokenFee * quantity`, and without a caller maximum
the ceiling is `total + total / 10` with truncating division; in particular
`quote(1000, 3, none)` gives total 3000 and ceiling 3300. -/
theorem mint_quote_total_and_default_ceiling (fee qty : ℕ) (_h : 1 ≤ qty) :
    (mintQuote fee qty none).1 = fee * qty ∧
    (mintQuote fee qty none).2 = fee * qty + fee * qty / 10 ∧
    mintQuote 1000 3 none = (3000, 3300) :=
  ⟨rfl, rfl, by decide⟩

/-- C4 witness: the theorem instantiated at the spec's concrete quote. -/
theorem mint_quote_total_and_default_ceiling_witness :
    (1 ≤ 3 ∧ mintQuote 1000 3 none = (3000, 3300)) :=
  ⟨by norm_num, (mint_quote_total_and_default_ceiling 1000 3 (by norm_num)).2.2⟩

/-- C5 counterexample: at `quote(perTokenFee=1000, quantity=3,
callerMaxFee=2500)` the handler's ceiling is `parseEther(2500) =
2500·10^18`, not the caller-supplied `2500` verbatim: the caller maximum is
scaled from tokens to base units before use. -/
theorem caller_max_fee_not_verbatim :
    (mintQuote 1000 3 (some ⟨2500, []⟩)).2 = 2500 * 10 ^ 18 ∧
    (2500 * 10 ^ 18 : ℕ) ≠ 2500 := by
  constructor <;> decide

/-- C5 amended: the ceiling is the caller-supplied maximum converted to base
units by the fixed 10^18 scaling (`parseEther`), passed through without
clamping: it never depends on the computed total and is used even when it is
below the total. -/
theorem caller_max_fee_scaled_passthrough (fee qty : ℕ) (m : DecNum) :
    (mintQuote fee qty (some m)).2 = parseEther m ∧
    (parseEther m < (mintQuote fee qty (some m)).1 →
      (mintQuote fee qty (some m)).2 < (mintQuote fee qty (some m)).1) :=
  ⟨rfl, fun h => h⟩

/-- C5 amended witness: with a per-token fee of `10^22` base units the scaled
caller maximum `2500·10^18` is below the total `3·10^22` and is still used. -/
theorem caller_max_fee_scaled_passthrough_witness :
    parseEther ⟨2500, []⟩ < (mintQuote (10 ^ 22) 3 (some ⟨2500, []⟩)).1 ∧
    (mintQuote (10 ^ 22) 3 (some ⟨2500, []⟩)).2 < (mintQuote (10 ^ 22) 3 (some ⟨2500, []⟩)).1 :=
  ⟨by decide, (caller_max_fee_scaled_passthrough (10 ^ 22) 3 ⟨2500, []⟩).2 (by decide)⟩

/-- C6 counterexample: the schema-valid fee `0.0000012345678901005021` (the
shortest decimal string of a reachable IEEE double, 22 fractional digits) has
exact scaled value `1234567890100.5021` base units, strictly between
`1234567890100` and `1234567890101`; rounding toward zero at the integer
boundary would give `1234567890100`, but `parseEther` returns
`1234567890101` — it rounds half-up, away from zero. -/
theorem fee_scaling_not_toward_zero :
    ((1234567890100 : ℚ) ≤ dC6.val * 10 ^ 18) ∧
    (dC6.val * 10 ^ 18 < 1234567890101) ∧
    parseEther dC6 = 1234567890101 := by
  have hv : dC6.val = 12345678901005021 / 10 ^ 22 := by
    norm_num [dC6, DecNum.val, fracValN]
  refine ⟨?_, ?_, by decide⟩
  · rw [hv]
    norm_num
  · rw [hv]
    norm_num

/-- C6 amended: decimal token amounts are converted to base units by the
fixed 10^18 scaling with no intermediate rounding; for every decimal with at
most 18 fractional digits the conversion is exact (in particular `1.5` scales
to `1500000000000000000` and `0` to `0`), while amounts with more than 18
fractional digits are rounded half-up at the final integer boundary
(`⌊x + 1/2⌋`), not toward zero. -/
theorem fee_scaling_exact_and_half_up :
    (∀ d : DecNum, d.fdigits.length ≤ 18 →
      ((parseEther d : ℕ) : ℚ) = d.val * 10 ^ 18) ∧
    parseEther ⟨1, [5]⟩ = 1500000000000000000 ∧
    parseEther ⟨0, []⟩ = 0 ∧
    (∀ d : DecNum, 18 < d.fdigits.length → (∀ k ∈ d.fdigits, k ≤ 9) →
      (parseEther d : ℤ) = ⌊d.val * 10 ^ 18 + 1 / 2⌋) := by
  refine ⟨?_, by decide, by decide, fun d hlen hdig => parseEther_half_up d hlen hdig⟩
  intro d h
  unfold parseEther DecNum.val
  rw [if_pos h]
  have h10 : (10 : ℚ) ^ (18 - d.fdigits.length) * 10 ^ d.fdigits.length = 10 ^ 18 := by
    rw [← pow_add]
    congr 1
    omega
  have hne : ((10 : ℚ) ^ d.fdigits.length) ≠ 0 := by positivity
  push_cast
  field_simp
  linear_combination (fracValN d.fdigits : ℚ) * h10

/-- C6 amended witness: exact scaling at the two-fractional-digit decimal
`2.25`, and half-up rounding at the 19-fractional-digit decimal
`0.0000000000000000019` (scaled value `1.9`, floor of `1.9 + 0.5` is `2`). -/
theorem fee_scaling_exact_and_half_up_witness :
    ((DecNum.mk 2 [2, 5]).fdigits.length ≤ 18 ∧
      ((parseEther ⟨2, [2, 5]⟩ : ℕ) : ℚ) = (DecNum.mk 2 [2, 5]).val * 10 ^ 18) ∧
    (18 < dW6.fdigits.length ∧ (∀ k ∈ dW6.fdigits, k ≤ 9) ∧
      (parseEther dW6 : ℤ) = ⌊dW6.val * 10 ^ 18 + 1 / 2⌋) :=
  ⟨⟨by decide, fee_scaling_exact_and_half_up.1 ⟨2, [2, 5]⟩ (by decide)⟩,
    ⟨by decide, by decide,
      fee_scaling_exact_and_half_up.2.2.2 dW6 (by decide) (by decide)⟩⟩

/-- C7 counterexample: on the `custom` preset the description `"$5"` — a bare
`$<number>` with no unit word — does not set the minting fee: the fee regex
requires `wip`, `dollar(s)` or `usd` after the number, so the record keeps the
default fee of 1 token (`10^18` base units) instead of 5 tokens. -/
theorem bare_dollar_does_not_set_fee :
    (buildLicenseTerms c7Inp).defaultMintingFee = 10 ^ 18 ∧
    (10 ^ 18 : ℕ) ≠ parseEther ⟨5, []⟩ := by
  constructor <;> decide

/-- C7 amended: the minting fee is overridden exactly by the first match of
`\$?(\d+(?:\.\d+)?)\s*(?:wip|dollars?|usd)` — a number followed (after
optional whitespace) by a unit word `wip`, `dollar(s)` or `usd`, with an
optional leading `$`; when the regex does not match (in particular on a bare
`$<number>`) and no free/no-fee keyword fires, the fee input is unchanged. -/
theorem fee_override_requires_unit_word (inp : LtInput) (d0 : List Char)
    (htype : inp.license_type = LicenseType.custom)
    (hd : inp.description = some d0) (hne : d0 ≠ []) :
    (∀ f : DecNum, findFee (d0.map Char.toLower) = some f →
      (buildLicenseTerms inp).defaultMintingFee = parseEther f) ∧
    (findFee (d0.map Char.toLower) = none →
      isSubL (("free").toList) (d0.map Char.toLower) = false →
      isSubL (("no fee").toList) (d0.map Char.toLower) = false →
      (buildLicenseTerms inp).defaultMintingFee = parseEther inp.minting_fee) := by
  constructor
  · intro f hf
    simp only [buildLicenseTerms, htype]
    rw [applyOverrides_minting_fee_of_match inp d0 f hd hne hf]
  · intro hnone h1 h2
    simp only [buildLicenseTerms, htype]
    have hfee : (applyOverrides inp).minting_fee = inp.minting_fee := by
      simp only [applyOverrides, hd]
      rw [if_neg (by simpa using hne)]
      rw [ovFee_minting_fee_of_none _ _ hnone, ovPercent_minting_fee,
        ovFree_minting_fee_of_not _ _ h1 h2, ovDeriv_minting_fee, ovCommercial_minting_fee]
    rw [hfee]

/-- C7 amended witness: the description `"2 wip"` does set the fee, to
`parseEther 2`. -/
theorem fee_override_requires_unit_word_witness :
    findFee ((("2 wip").toList).map Char.toLower) = some ⟨2, []⟩ ∧
    (buildLicenseTerms w7Inp).defaultMintingFee = parseEther ⟨2, []⟩ :=
  ⟨by decide,
    (fee_override_requires_unit_word w7Inp (("2 wip").toList) rfl rfl (by decide)).1
      ⟨2, []⟩ (by decide)⟩

/-- C8: a mint request whose token quantity is below 1 is rejected by the zod
`amount` schema (`z.number().int().min(1)`) with the below-minimum issue — the
spec's `InvalidQuantityError` — before any fee is computed: the pipeline
returns the validation error, never a quote. -/
theorem quantity_below_one_rejected (q : ℚ) (fee : ℕ) (cm : Option DecNum)
    (h : q < 1) :
    mintPipeline q fee cm = Except.error (amountIssues q) ∧
    AmountIssue.tooSmall ∈ amountIssues q := by
  have hmem : AmountIssue.tooSmall ∈ amountIssues q := by
    unfold amountIssues
    rw [if_pos h]
    simp
  have hnonempty : amountIssues q ≠ [] := by
    intro hempty
    rw [hempty] at hmem
    exact List.not_mem_nil _ hmem
  exact ⟨by unfold mintPipeline; rw [if_neg hnonempty], hmem⟩

/-- C8 witness: the theorem at quantity 0. -/
theorem quantity_below_one_rejected_witness :
    mintPipeline 0 1000 none = Except.error (amountIssues 0) ∧
    AmountIssue.tooSmall ∈ amountIssues 0 :=
  quantity_below_one_rejected 0 1000 none (by norm_num)

/-- C9: on the `commercial_remix` preset the handler defaults falsy inputs
with `||`: a zero minting fee yields the default 1 token (`10^18` base
units) and a zero revenue share yields the default 5; consequently the
resulting `commercialRevShare` is never 0, and (for fee inputs of at most 18
fractional digits) the resulting `defaultMintingFee` is never 0. -/
theorem remix_falsy_zero_inputs_defaulted (inp : LtInput)
    (htype : inp.license_type = LicenseType.commercial_remix) :
    (inp.minting_fee.isZero = true →
      (buildLicenseTerms inp).defaultMintingFee = 10 ^ 18) ∧
    (inp.commercial_rev_share = 0 →
      (buildLicenseTerms inp).commercialRevShare = 5) ∧
    (buildLicenseTerms inp).commercialRevShare ≠ 0 ∧
    (inp.minting_fee.fdigits.length ≤ 18 →
      (buildLicenseTerms inp).defaultMintingFee ≠ 0) := by
  simp only [buildLicenseTerms, htype, createCommercialRemixTerms]
  refine ⟨?_, ?_, ?_, ?_⟩
  · intro hz
    unfold orDefaultDec
    rw [if_pos hz]
    decide
  · intro h0
    unfold orDefaultQ
    rw [if_pos h0]
  · unfold orDefaultQ
    split
    · norm_num
    · rename_i hne0
      exact hne0
  · intro hlen
    unfold orDefaultDec
    split
    · decide
    · rename_i hnz
      exact parseEther_ne_zero inp.minting_fee hlen (Bool.eq_false_iff.mpr hnz)

/-- C9 witness: the commercial-remix request with `minting_fee = 0` and
`commercial_rev_share = 0` produces fee `10^18` and revenue share 5. -/
theorem remix_falsy_zero_inputs_defaulted_witness :
    c9Inp.minting_fee.isZero = true ∧
    (buildLicenseTerms c9Inp).defaultMintingFee = 10 ^ 18 ∧
    (buildLicenseTerms c9Inp).commercialRevShare = 5 :=
  ⟨by decide, (remix_falsy_zero_inputs_defaulted c9Inp rfl).1 (by decide),
    (remix_falsy_zero_inputs_defaulted c9Inp rfl).2.1 (by norm_num [c9Inp, defaultInput])⟩

/-- C10: on the `custom` preset the percentage parsed from the free-text
description is written into the record without range checking: whenever
`/(\d+)%/` first matches the integer `n`, the submitted `commercialRevShare`
equals `n`, even when `n` exceeds the 0–100 bound that the zod schema
enforces on the explicit `commercial_rev_share` parameter. -/
theorem percent_override_bypasses_schema_bound (inp : LtInput) (d0 : List Char) (n : ℕ)
    (htype : inp.license_type = LicenseType.custom)
    (hd : inp.description = some d0) (hne : d0 ≠ [])
    (hp : findPercent (d0.map Char.toLower) = some n) :
    (buildLicenseTerms inp).commercialRevShare = (n : ℚ) := by
  simp only [buildLicenseTerms, htype]
  exact applyOverrides_rev_share_of_match inp d0 n hd hne hp

/-- C10 witness: the description `"150% share"` drives the submitted revenue
share to 150, outside the schema's 0–100 bound. -/
theorem percent_override_bypasses_schema_bound_witness :
    findPercent ((("150% share").toList).map Char.toLower) = some 150 ∧
    (buildLicenseTerms c10Inp).commercialRevShare = ((150 : ℕ) : ℚ) ∧
    ¬ schemaValidRevShare ((150 : ℕ) : ℚ) :=
  ⟨by decide,
    percent_override_bypasses_schema_bound c10Inp (("150% share").toList) 150 rfl rfl
      (by decide) (by decide),
    by norm_num [schemaValidRevShare]⟩
